import Mathlib

/-!
Verification of the request-handling core of a small HTTP/1.1 server
(`src/server.cpp`). The C++ `std::string` byte buffers are modelled as
`List Char` (one `Char` per byte, so list length is byte length), `size_t`
values as `Nat` reduced modulo `2 ^ 64` where C++ arithmetic can wrap, and
operations that can throw (`std::string::substr` with an out-of-range
position) return `Option`, with `none` modelling the thrown exception.
The filesystem and stream I/O are modelled by an explicit state
(`SysState`) mapping paths to file contents.
-/

set_option autoImplicit false

/-- Modulus of `size_t` arithmetic (64-bit). -/
def SIZE_T_MOD : Nat := 18446744073709551616

/-- `std::string::npos`, i.e. `2 ^ 64 - 1`. -/
def NPOS : Nat := 18446744073709551615

/-- First index at which `m` occurs as a contiguous substring of `s`
(the semantics of `std::string::find`); `none` when there is no
occurrence. Note `findSub [] s = some 0`, as in C++. -/
def findSub (m : List Char) : List Char → Option Nat
  | [] => if m.isPrefixOf ([] : List Char) then some 0 else none
  | c :: t =>
    if m.isPrefixOf (c :: t) then some 0
    else (findSub m t).map (fun j => j + 1)

/-- `s.find(m)` as a `size_t` value: the first match index, or `NPOS`. -/
def cppFindIdx (s m : List Char) : Nat := (findSub m s).getD NPOS

/-- `s.substr(pos, count)`: throws `std::out_of_range` (modelled as `none`)
when `pos > s.size()`, otherwise yields at most `count` characters
starting at `pos`. -/
def cppSubstr (s : List Char) (pos count : Nat) : Option (List Char) :=
  if pos > s.length then none else some ((s.drop pos).take count)

/-- The marker `m` occurs somewhere inside `s` as a contiguous substring. -/
def occursIn (m s : List Char) : Prop := ∃ t u, s = t ++ m ++ u

/-- `s.find_first_of("/")` for the single-character set: the first index
holding the character, if any. -/
def find_first_of : List Char → Char → Option Nat
  | [], _ => none
  | a :: t, c => if a = c then some 0 else (find_first_of t c).map (fun j => j + 1)

/-- `s.find_last_of("/")` for the single-character set: the last index
holding the character, if any. -/
def find_last_of : List Char → Char → Option Nat
  | [], _ => none
  | a :: t, c =>
    match find_last_of t c with
    | some j => some (j + 1)
    | none => if a = c then some 0 else none

/-- The `"\r\n"` line terminator constant of the server. -/
def CRLF : List Char := ("\r\n").data

def HTTP200 : List Char := ("HTTP/1.1 200 OK").data ++ CRLF

def HTTP201 : List Char := ("HTTP/1.1 201 Created").data ++ CRLF

def HTTP400 : List Char := ("HTTP/1.1 400 Bad Request").data ++ CRLF

def HTTP404 : List Char := ("HTTP/1.1 404 Not Found").data ++ CRLF

def HTTP414 : List Char := ("HTTP/1.1 414 URI Too Long").data ++ CRLF

def HTTP500 : List Char := ("HTTP/1.1 500 Internal Server Error").data ++ CRLF

def HTTP501 : List Char := ("HTTP/1.1 501 Not Implemented").data ++ CRLF

/-- Translation of `parseBetween` (`server.cpp` lines 312-318):
`int i = firstMarker.length(); size_t pos = s.find(firstMarker);
suffix = s.substr(pos+i); pos2 = suffix.find(secondMarker);
return s.substr(pos+i, pos2);`. When the first marker is absent,
`pos = npos` and `pos + i` wraps modulo `2 ^ 64` to `i - 1` (the
`size_t`-to-`int` conversion of `firstMarker.length()` is
value-preserving for every marker shorter than `2 ^ 31` bytes). -/
def parseBetween (s firstMarker secondMarker : List Char) : Option (List Char) :=
  let i := firstMarker.length
  let pos := cppFindIdx s firstMarker
  match cppSubstr s ((pos + i) % SIZE_T_MOD) NPOS with
  | none => none
  | some suffix => cppSubstr s ((pos + i) % SIZE_T_MOD) (cppFindIdx suffix secondMarker)

/-- Translation of `parseFromThisToEnd` (`server.cpp` lines 320-324):
`return s.substr(pos+i, s.size());` with the same wrap-around as
`parseBetween` when the marker is absent. -/
def parseFromThisToEnd (s firstMarker : List Char) : Option (List Char) :=
  let i := firstMarker.length
  let pos := cppFindIdx s firstMarker
  cppSubstr s ((pos + i) % SIZE_T_MOD) s.length

/-- `getPath` (line 326): the text between the first `" /"` and the next space. -/
def getPath (requestContents : List Char) : Option (List Char) :=
  parseBetween requestContents ((" /").data) ((" ").data)

/-- `getMethod` (line 330): `parseBetween(requestContents, "", " ")`,
i.e. the prefix of the buffer up to the first space. -/
def getMethod (requestContents : List Char) : Option (List Char) :=
  parseBetween requestContents ([] : List Char) ((" ").data)

/-- `formulateEchoResponse` (lines 334-342): prepends `"/"`, takes
`path.substr(6)` as the body and wraps it in a 200 response with
`Content-Type: text/plain` and `Content-Length`. -/
def formulateEchoResponse (path : List Char) : Option (List Char) :=
  let path2 := '/' :: path
  match cppSubstr path2 6 NPOS with
  | none => none
  | some body =>
    some (HTTP200 ++ ("Content-Type: text/plain").data ++ CRLF ++
      ("Content-Length: ").data ++ (Nat.repr body.length).data ++ CRLF ++ CRLF ++ body)

/-- `formulateUserAgentResponse` (lines 344-351): the body is
`parseBetween(requestContents, CRLF + "User-Agent: ", CRLF)`. -/
def formulateUserAgentResponse (requestContents : List Char) : Option (List Char) :=
  match parseBetween requestContents (CRLF ++ ("User-Agent: ").data) CRLF with
  | none => none
  | some body =>
    some (HTTP200 ++ ("Content-Type: text/plain").data ++ CRLF ++
      ("Content-Length: ").data ++ (Nat.repr body.length).data ++ CRLF ++ CRLF ++ body)

/-- Abstract system state: the filesystem as a map from exact path strings
to file contents (an `ifstream` opens successfully exactly when the path is
mapped), and a predicate telling which destination paths an `ofstream` can
be opened on. Paths are matched verbatim, as the server performs no
normalization of its own. -/
structure SysState where
  fs : List Char → Option (List Char)
  writable : List Char → Bool

/-- Writing (creating or truncating) the file at `p` with contents `v`. -/
def writeFS (st : SysState) (p v : List Char) : SysState :=
  { st with fs := fun q => if q = p then some v else st.fs q }

/-- Models one `std::getline(file, line)` call on a stream whose remaining
contents are the argument: returns the extracted line (up to, not
including, the first `'\n'`) and `some rest` when the delimiter was
consumed (stream still good), or `none` when the read ran into end of
file, which sets `eofbit` (and `failbit` when nothing could be read) so
that `file.good()` becomes false. -/
def getline : List Char → List Char × Option (List Char)
  | [] => ([], none)
  | c :: t =>
    if c = '\n' then ([], some t)
    else
      let p := getline t
      (c :: p.1, p.2)

/-- Models the reading loop of `fetchFileContents` (lines 382-386):
`while (file.good()) { getline(file, line); contents += line; contents += "\n"; }`.
Each character of a line is emitted as part of that line, each consumed
`'\n'` delimiter is re-emitted by the `contents += "\n"` of its
iteration, and the final `getline` at end of file contributes one extra
`"\n"` (the `[]` case); the loop-level recurrence is proved below as
`readLoop_getline_some` / `readLoop_getline_none`. -/
def readLoop : List Char → List Char
  | [] => ['\n']
  | c :: t => if c = '\n' then '\n' :: readLoop t else c :: readLoop t

/-- Translation of `fetchFileContents` (lines 377-399). `fileContents` is
the result of opening the file: `none` models an `ifstream` that is not
good from the start (the while loop never runs, `contents` stays empty).
The count of `contents.substr(0, contents.size()-1)` is taken in `size_t`
arithmetic, so an empty `contents` yields a count of `NPOS`. -/
def fetchFileContents (fileContents : Option (List Char)) (contentType : List Char) : List Char :=
  let contents : List Char :=
    match fileContents with
    | none => []
    | some data => readLoop data
  let contents2 := contents.take (if contents.length = 0 then NPOS else contents.length - 1)
  HTTP200 ++ ("Content-Type: ").data ++ contentType ++ CRLF ++
    ("Content-Length: ").data ++ (Nat.repr contents2.length).data ++ CRLF ++ CRLF ++ contents2

/-- Translation of `isValidFilePath` (lines 364-374). The C++ stores
`path.find_first_of("/")` into an `int`: a found index round-trips
unchanged, and `npos` converts to `-1` and back to `npos` in the
comparison `index > path.size()`, so the `size_t` value is compared
directly here. The final `std::ifstream(path); file.good()` test is the
filesystem lookup. -/
def isValidFilePath (st : SysState) (path : List Char) : Bool :=
  let index := (find_first_of path '/').getD NPOS
  if index > path.length then false
  else (st.fs path).isSome

/-- Translation of `getFileExtension` (lines 431-439). `found + 1` is
`size_t` arithmetic, so a `find_last_of` miss (`npos`) wraps to `0` and
the whole path is taken as the file name; the C++ `found2 == -1`
comparison converts `-1` to `npos`. -/
def getFileExtension (validPath : List Char) : Option (List Char) :=
  let found := (find_last_of validPath '/').getD NPOS
  match cppSubstr validPath ((found + 1) % SIZE_T_MOD) NPOS with
  | none => none
  | some file =>
    let found2 := (find_last_of file '.').getD NPOS
    if found2 = NPOS then some []
    else cppSubstr file ((found2 + 1) % SIZE_T_MOD) NPOS

/-- Translation of `defaultContentType` (lines 441-478). -/
def defaultContentType (fileExtension : List Char) : List Char :=
  if fileExtension = ("bmp").data then ("image/bmp").data
  else if fileExtension = ("css").data then ("text/css").data
  else if fileExtension = ("csv").data then ("text/csv").data
  else if fileExtension = ("gif").data then ("image/gif").data
  else if fileExtension = ("htm").data ∨ fileExtension = ("html").data then ("text/html").data
  else if fileExtension = ("ico").data then ("image/vnd.microsoft.icon").data
  else if fileExtension = ("jpg").data ∨ fileExtension = ("jpeg").data then ("image/jpeg").data
  else if fileExtension = ("js").data then ("text/javascript").data
  else if fileExtension = ("json").data then ("application/json").data
  else if fileExtension = ("png").data then ("image/png").data
  else if fileExtension = ("pdf").data then ("application/pdf").data
  else if fileExtension = ("php").data then ("application/x-httpd-php").data
  else if fileExtension = ("svg").data then ("image/svg+xml").data
  else if fileExtension = ("tif").data ∨ fileExtension = ("tiff").data then ("image/tiff").data
  else if fileExtension = ("txt").data then ("text/plain").data
  else ("application/octet-stream").data

/-- Translation of `codeCraftersGetFile` (lines 401-409): strips the
six-byte `"files/"` prefix with `path.substr(6, path.size())`, prepends
the configured directory with plain concatenation (no separator is
inserted), and serves the file as `application/octet-stream` when
`isValidFilePath` accepts the result, else 404. -/
def codeCraftersGetFile (st : SysState) (path directory : List Char) : Option (List Char) :=
  match cppSubstr path 6 path.length with
  | none => none
  | some ap =>
    let actualPath := directory ++ ap
    if isValidFilePath st actualPath = false then some (HTTP404 ++ CRLF)
    else some (fetchFileContents (st.fs actualPath) (("application/octet-stream").data))

/-- Translation of `storeFile` (lines 412-429): strips the `"files/"`
prefix, joins with the directory (inserting `"/"` only when the directory
is non-empty), opens the destination (the `mkdir(directory)` call only
creates the root directory, which the abstract `writable` predicate
already accounts for), and writes the request contents after the first
`"\r\n\r\n"`. The truncation performed by a successfully opened
`ofstream` before a `parseFromThisToEnd` exception is not modelled, as no
verified statement reaches that path. -/
def storeFile (st : SysState) (path directory requestContents : List Char) : Option (Bool × SysState) :=
  match cppSubstr path 6 path.length with
  | none => none
  | some p1 =>
    let path2 := if directory = [] then directory ++ p1 else directory ++ '/' :: p1
    if st.writable path2 = false then some (false, st)
    else
      match parseFromThisToEnd requestContents (CRLF ++ CRLF) with
      | none => none
      | some body => some (true, writeFS st path2 body)

/-- Translation of the response formulation of `handleClient`
(lines 221-280): the 414 pre-check against the 1024-byte buffer, then
path/method extraction, then the dispatch on method and path prefix.
Returns the response that is sent together with the post-state; `none`
models an uncaught exception (no response is sent). Note that when the
method is neither `"GET"` nor `"POST"`, no branch assigns `response`, so
the empty string is sent. -/
def handleClient (st : SysState) (bytes_received : Nat) (requestContents directory : List Char) :
    Option (List Char × SysState) :=
  let response : List Char := if bytes_received > 1024 then HTTP414 ++ CRLF else []
  match getPath requestContents with
  | none => none
  | some path =>
    match getMethod requestContents with
    | none => none
    | some method =>
      if response ≠ [] then some (response, st)
      else if method = ("GET").data then
        if path = [] then some (HTTP200 ++ CRLF, st)
        else if cppSubstr path 0 5 = some (("echo/").data) then
          match formulateEchoResponse path with
          | none => none
          | some r => some (r, st)
        else if cppSubstr path 0 10 = some (("user-agent").data) then
          match formulateUserAgentResponse requestContents with
          | none => none
          | some r => some (r, st)
        else if cppSubstr path 0 6 = some (("files/").data) then
          match codeCraftersGetFile st path directory with
          | none => none
          | some r => some (r, st)
        else if isValidFilePath st path = true then
          match getFileExtension path with
          | none => none
          | some fe => some (fetchFileContents (st.fs path) (defaultContentType fe), st)
        else some (HTTP404 ++ CRLF, st)
      else if method = ("POST").data then
        if cppSubstr path 0 6 = some (("files/").data) then
          match storeFile st path directory requestContents with
          | none => none
          | some (ok, st2) =>
            if ok = false then some (HTTP500 ++ CRLF, st2)
            else some (HTTP201 ++ CRLF, st2)
        else some (HTTP501 ++ CRLF, st)
      else some (([] : List Char), st)

/-- Everything strictly after the last occurrence of `c` in `s` (all of
`s` when `c` does not occur): the reversal of the longest `c`-free
suffix. Used only by the spec-side definitions below. -/
def afterLast (c : Char) (s : List Char) : List Char :=
  (s.reverse.takeWhile (fun a => a != c)).reverse

/-- Spec-side: the last path segment, i.e. the part of the path after the
last path separator (the whole path when it has no separator). -/
def lastSegment (path : List Char) : List Char := afterLast '/' path

/-- Spec-side, modelling the words of the specification: the extension is
the substring after the last `"."` in the last path segment, empty if
that segment contains no `"."`. -/
def extensionSpec (path : List Char) : List Char :=
  if '.' ∈ lastSegment path then afterLast '.' (lastSegment path) else []

/-- Spec-side: the fixed extension-to-MIME table of the specification,
with every other or empty extension mapping to
`application/octet-stream`. -/
def contentTypeSpec (ext : List Char) : List Char :=
  if ext = ("bmp").data then ("image/bmp").data
  else if ext = ("css").data then ("text/css").data
  else if ext = ("csv").data then ("text/csv").data
  else if ext = ("gif").data then ("image/gif").data
  else if ext = ("htm").data ∨ ext = ("html").data then ("text/html").data
  else if ext = ("ico").data then ("image/vnd.microsoft.icon").data
  else if ext = ("jpg").data ∨ ext = ("jpeg").data then ("image/jpeg").data
  else if ext = ("js").data then ("text/javascript").data
  else if ext = ("json").data then ("application/json").data
  else if ext = ("png").data then ("image/png").data
  else if ext = ("pdf").data then ("application/pdf").data
  else if ext = ("php").data then ("application/x-httpd-php").data
  else if ext = ("svg").data then ("image/svg+xml").data
  else if ext = ("tif").data ∨ ext = ("tiff").data then ("image/tiff").data
  else if ext = ("txt").data then ("text/plain").data
  else ("application/octet-stream").data

/-- A state with no files and no writable destinations. -/
def stEmpty : SysState := ⟨fun _ => none, fun _ => false⟩

/-- A state with no files where every destination is writable. -/
def stWritable : SysState := ⟨fun _ => none, fun _ => true⟩

/-- A state whose only file is `d/x` (the file `x` inside directory `d`)
with contents `hello`. -/
def stOneFile : SysState :=
  ⟨fun p => if p = ("d/x").data then some (("hello").data) else none, fun _ => false⟩

/-- A store-then-fetch round trip through the `files/` routes: run
`storeFile`, and on success fetch the same name with
`codeCraftersGetFile`. -/
def roundTrip (st : SysState) (directory name rcPost : List Char) : Option (List Char) :=
  match storeFile st ((("files/").data) ++ name) directory rcPost with
  | some (true, st2) => codeCraftersGetFile st2 ((("files/").data) ++ name) directory
  | _ => none

theorem isPrefixOf_exists_append : ∀ (m s : List Char), m.isPrefixOf s = true ↔ ∃ u, s = m ++ u
  | [], s => by
    simp [List.isPrefixOf]
  | c :: m', [] => by
    simp [List.isPrefixOf]
  | c :: m', a :: s' => by
    simp only [List.isPrefixOf, Bool.and_eq_true, beq_iff_eq]
    constructor
    · rintro ⟨rfl, h⟩
      obtain ⟨u, rfl⟩ := (isPrefixOf_exists_append m' s').mp h
      exact ⟨u, rfl⟩
    · rintro ⟨u, hu⟩
      injection hu with h1 h2
      exact ⟨h1.symm, (isPrefixOf_exists_append m' s').mpr ⟨u, h2⟩⟩

theorem findSub_some_le : ∀ (m s : List Char) (p : Nat), findSub m s = some p → p + m.length ≤ s.length
  | m, [], p => by
    simp only [findSub]
    split
    · rename_i hpre
      intro he
      injection he with he
      obtain ⟨u, hu⟩ := (isPrefixOf_exists_append m []).mp hpre
      have : m = [] := by
        cases m with
        | nil => rfl
        | cons x xs => simp at hu
      subst this
      simp [← he]
    · intro he
      cases he
  | m, c :: t, p => by
    simp only [findSub]
    split
    · rename_i hpre
      intro he
      injection he with he
      obtain ⟨u, hu⟩ := (isPrefixOf_exists_append m (c :: t)).mp hpre
      have : (c :: t).length = m.length + u.length := by rw [hu, List.length_append]
      omega
    · intro he
      simp only [Option.map_eq_some'] at he
      obtain ⟨q, hq, hpq⟩ := he
      have := findSub_some_le m t q hq
      subst hpq
      simp only [List.length_cons]
      omega

theorem findSub_eq_none_iff : ∀ (m s : List Char), findSub m s = none ↔ ¬ occursIn m s
  | m, [] => by
    simp only [findSub]
    split
    · rename_i hpre
      obtain ⟨u, hu⟩ := (isPrefixOf_exists_append m []).mp hpre
      have hm : m = [] := by
        cases m with
        | nil => rfl
        | cons x xs => simp at hu
      subst hm
      simp only [occursIn]
      constructor
      · intro h; cases h
      · intro h
        exact absurd ⟨[], [], rfl⟩ h
    · rename_i hpre
      simp only [occursIn]
      constructor
      · rintro - ⟨t, u, htu⟩
        have : m.isPrefixOf [] = true := by
          cases t with
          | nil =>
            simp only [List.nil_append] at htu
            rw [isPrefixOf_exists_append]
            exact ⟨u, htu⟩
          | cons x xs => simp at htu
        exact hpre this
      · intro _; trivial
  | m, a :: s' => by
    simp only [findSub]
    split
    · rename_i hpre
      simp only [occursIn]
      constructor
      · intro h; cases h
      · intro h
        obtain ⟨u, hu⟩ := (isPrefixOf_exists_append m (a :: s')).mp hpre
        exact absurd ⟨[], u, by simpa using hu⟩ h
    · rename_i hpre
      simp only [Option.map_eq_none']
      rw [findSub_eq_none_iff m s']
      simp only [occursIn]
      constructor
      · rintro hno ⟨t, u, htu⟩
        cases t with
        | nil =>
          simp only [List.nil_append] at htu
          exact hpre ((isPrefixOf_exists_append m (a :: s')).mpr ⟨u, htu⟩)
        | cons b t' =>
          simp only [List.cons_append] at htu
          injection htu with h1 h2
          exact hno ⟨t', u, h2⟩
      · intro hno ⟨t, u, htu⟩
        exact hno ⟨a :: t, u, by simp [htu]⟩

theorem findSub_nil_marker (s : List Char) : findSub ([] : List Char) s = some 0 := by
  cases s <;> simp [findSub, List.isPrefixOf]

theorem find_first_of_eq_none_iff : ∀ (s : List Char) (c : Char), find_first_of s c = none ↔ c ∉ s
  | [], c => by simp [find_first_of]
  | a :: t, c => by
    simp only [find_first_of]
    split
    · rename_i hac
      subst hac
      simp
    · rename_i hac
      simp only [Option.map_eq_none']
      rw [find_first_of_eq_none_iff t c]
      simp only [List.mem_cons, not_or]
      constructor
      · intro h
        exact ⟨fun he => hac he.symm, h⟩
      · intro h
        exact h.2

theorem find_first_of_some_lt : ∀ (s : List Char) (c : Char) (i : Nat),
    find_first_of s c = some i → i < s.length
  | [], c, i => by simp [find_first_of]
  | a :: t, c, i => by
    simp only [find_first_of]
    split
    · intro he
      injection he with he
      simp [← he]
    · intro he
      simp only [Option.map_eq_some'] at he
      obtain ⟨j, hj, hij⟩ := he
      have := find_first_of_some_lt t c j hj
      subst hij
      simp only [List.length_cons]
      omega

theorem find_last_of_eq_none_iff : ∀ (s : List Char) (c : Char), find_last_of s c = none ↔ c ∉ s
  | [], c => by simp [find_last_of]
  | a :: t, c => by
    cases hft : find_last_of t c with
    | some j =>
      simp only [find_last_of, hft]
      constructor
      · intro h; cases h
      · intro h
        have : c ∈ t := by
          by_contra hc
          rw [← find_last_of_eq_none_iff t c] at hc
          rw [hc] at hft
          cases hft
        exact absurd (List.mem_cons_of_mem a this) h
    | none =>
      have hct : c ∉ t := (find_last_of_eq_none_iff t c).mp hft
      simp only [find_last_of, hft]
      by_cases hac : a = c
      · subst hac
        simp
      · rw [if_neg hac]
        simp only [List.mem_cons, not_or]
        constructor
        · intro _
          exact ⟨fun he => hac he.symm, hct⟩
        · intro _
          trivial

theorem find_last_of_some_lt : ∀ (s : List Char) (c : Char) (i : Nat),
    find_last_of s c = some i → i < s.length
  | [], c, i => by simp [find_last_of]
  | a :: t, c, i => by
    cases hft : find_last_of t c with
    | some j =>
      simp only [find_last_of, hft]
      intro he
      injection he with he
      have := find_last_of_some_lt t c j hft
      simp only [List.length_cons]
      omega
    | none =>
      simp only [find_last_of, hft]
      by_cases hac : a = c
      · rw [if_pos hac]
        intro he
        injection he with he
        simp [← he]
      · rw [if_neg hac]
        intro he
        cases he

theorem takeWhile_append_of_stop (p : Char → Bool) :
    ∀ (xs ys : List Char) (x : Char), x ∈ xs → p x = false →
      (xs ++ ys).takeWhile p = xs.takeWhile p
  | [], ys, x => by simp
  | a :: xs', ys, x => by
    intro hx hpx
    simp only [List.cons_append, List.takeWhile_cons]
    cases hpa : p a with
    | false => simp
    | true =>
      simp only [if_pos rfl]
      have hxxs : x ∈ xs' := by
        cases List.mem_cons.mp hx with
        | inl he => subst he; rw [hpa] at hpx; cases hpx
        | inr hm => exact hm
      rw [takeWhile_append_of_stop p xs' ys x hxxs hpx]

theorem takeWhile_append_of_forall (p : Char → Bool) :
    ∀ (xs ys : List Char), (∀ x ∈ xs, p x = true) →
      (xs ++ ys).takeWhile p = xs ++ ys.takeWhile p
  | [], ys => by simp
  | a :: xs', ys => by
    intro h
    have hpa : p a = true := h a (List.mem_cons_self a xs')
    simp only [List.cons_append, List.takeWhile_cons, hpa, if_true]
    rw [takeWhile_append_of_forall p xs' ys (fun x hx => h x (List.mem_cons_of_mem a hx))]

theorem takeWhile_eq_self_of_forall (p : Char → Bool) :
    ∀ (l : List Char), (∀ x ∈ l, p x = true) → l.takeWhile p = l
  | [] => by simp
  | a :: l' => by
    intro h
    have hpa : p a = true := h a (List.mem_cons_self a l')
    simp only [List.takeWhile_cons, hpa, if_true]
    rw [takeWhile_eq_self_of_forall p l' (fun x hx => h x (List.mem_cons_of_mem a hx))]

theorem takeWhile_length_le (p : Char → Bool) : ∀ (l : List Char), (l.takeWhile p).length ≤ l.length
  | [] => by simp
  | a :: l' => by
    simp only [List.takeWhile_cons]
    cases hpa : p a with
    | false => simp
    | true =>
      simp only [if_true, List.length_cons]
      have := takeWhile_length_le p l'
      omega

theorem afterLast_of_not_mem (c : Char) (s : List Char) (h : c ∉ s) : afterLast c s = s := by
  unfold afterLast
  rw [takeWhile_eq_self_of_forall, List.reverse_reverse]
  intro x hx
  rw [bne_iff_ne]
  intro he
  exact h (he ▸ List.mem_reverse.mp hx)

theorem afterLast_length_le (c : Char) (s : List Char) : (afterLast c s).length ≤ s.length := by
  unfold afterLast
  rw [List.length_reverse]
  calc (s.reverse.takeWhile (fun a => a != c)).length ≤ s.reverse.length :=
        takeWhile_length_le _ _
    _ = s.length := List.length_reverse s

theorem drop_find_last_eq_afterLast (c : Char) :
    ∀ (s : List Char) (i : Nat), find_last_of s c = some i → s.drop (i + 1) = afterLast c s
  | [], i => by simp [find_last_of]
  | a :: t, i => by
    intro h
    simp only [find_last_of] at h
    cases hft : find_last_of t c with
    | some j =>
      rw [hft] at h
      injection h with h
      subst h
      have hct : c ∈ t := by
        by_contra hc
        rw [← find_last_of_eq_none_iff t c] at hc
        rw [hc] at hft
        cases hft
      have h1 : afterLast c (a :: t) = afterLast c t := by
        unfold afterLast
        rw [show (a :: t).reverse = t.reverse ++ [a] from by simp]
        rw [takeWhile_append_of_stop _ _ _ c (List.mem_reverse.mpr hct) (by simp)]
      rw [h1]
      have : (a :: t).drop (j + 1 + 1) = t.drop (j + 1) := by simp [List.drop]
      rw [this]
      exact drop_find_last_eq_afterLast c t j hft
    | none =>
      rw [hft] at h
      have hct : c ∉ t := (find_last_of_eq_none_iff t c).mp hft
      by_cases hac : a = c
      · rw [if_pos hac] at h
        injection h with h
        subst hac
        have h0 : i = 0 := by omega
        subst h0
        unfold afterLast
        rw [show (a :: t).reverse = t.reverse ++ [a] from by simp]
        rw [takeWhile_append_of_forall _ _ _ (by
          intro x hx
          rw [bne_iff_ne]
          intro he
          exact hct (he ▸ List.mem_reverse.mp hx))]
        simp [List.takeWhile_cons]
      · rw [if_neg hac] at h
        cases h

theorem cppSubstr_of_le (s : List Char) (pos count : Nat) (h : pos ≤ s.length) :
    cppSubstr s pos count = some ((s.drop pos).take count) := by
  unfold cppSubstr
  rw [if_neg (by omega)]


theorem getline_none_eq : ∀ (r l : List Char), getline r = (l, none) → r = l
  | [], l => by
    intro h
    simp only [getline, Prod.mk.injEq] at h
    exact h.1
  | c :: t, l => by
    intro h
    by_cases hc : c = '\n'
    · subst hc
      simp [getline] at h
    · simp only [getline, if_neg hc, Prod.mk.injEq] at h
      obtain ⟨h1, h2⟩ := h
      have hgt : getline t = ((getline t).1, none) := by
        rw [← h2]
      have := getline_none_eq t (getline t).1 hgt
      rw [← h1, ← this]

theorem getline_some_eq : ∀ (r l rest : List Char), getline r = (l, some rest) → r = l ++ '\n' :: rest
  | [], l, rest => by
    intro h
    simp [getline] at h
  | c :: t, l, rest => by
    intro h
    by_cases hc : c = '\n'
    · subst hc
      rw [show getline ('\n' :: t) = ([], some t) from by simp [getline]] at h
      injection h with h1 h2
      injection h2 with h2
      rw [← h1, ← h2]
      rfl
    · simp only [getline, if_neg hc, Prod.mk.injEq] at h
      obtain ⟨h1, h2⟩ := h
      have hgt : getline t = ((getline t).1, some rest) := by
        rw [← h2]
      have := getline_some_eq t (getline t).1 rest hgt
      rw [← h1, List.cons_append]
      exact congrArg (fun x => c :: x) this

theorem readLoop_eq_append : ∀ (r : List Char), readLoop r = r ++ ['\n']
  | [] => rfl
  | c :: t => by
    by_cases hc : c = '\n'
    · subst hc
      simp [readLoop, readLoop_eq_append t]
    · simp [readLoop, hc, readLoop_eq_append t]

/-- Fidelity of `readLoop` to the source loop, middle iterations: when
`getline` consumes a delimiter (the stream stays good and the loop
continues), the loop output is the line, the re-emitted newline, then the
output for the remaining stream. -/
theorem readLoop_getline_some (r l rest : List Char) (h : getline r = (l, some rest)) :
    readLoop r = l ++ '\n' :: readLoop rest := by
  rw [readLoop_eq_append r, readLoop_eq_append rest, getline_some_eq r l rest h]
  simp

/-- Fidelity of `readLoop` to the source loop, final iteration: when
`getline` hits end of file the loop appends the partial line and one
`"\n"` and stops. -/
theorem readLoop_getline_none (r l : List Char) (h : getline r = (l, none)) :
    readLoop r = l ++ ['\n'] := by
  rw [readLoop_eq_append r, getline_none_eq r l h]

/-- The line-by-line reconstruction followed by the removal of the final
character is the identity on the file contents, so `fetchFileContents`
serves the file byte for byte. -/
theorem fetchFileContents_eq (data contentType : List Char) :
    fetchFileContents (some data) contentType =
      HTTP200 ++ ("Content-Type: ").data ++ contentType ++ CRLF ++
        ("Content-Length: ").data ++ (Nat.repr data.length).data ++ CRLF ++ CRLF ++ data := by
  unfold fetchFileContents
  simp only [readLoop_eq_append]
  have h0 : (data ++ ['\n']).length = data.length + 1 := by simp
  rw [h0]
  simp only [Nat.succ_ne_zero, if_false, Nat.add_sub_cancel]
  rw [List.take_left]

/-- Behavior of `parseBetween` when the first marker occurs at index `p`:
the result starts right after the marker and extends up to the first
occurrence of the second marker in the remaining suffix (to the end of
the string when the second marker is absent, as the count is then
`NPOS`). -/
theorem parseBetween_found (s m1 m2 : List Char) (p : Nat) (hf : findSub m1 s = some p)
    (hs : s.length < SIZE_T_MOD) :
    parseBetween s m1 m2 =
      some ((s.drop (p + m1.length)).take (cppFindIdx (s.drop (p + m1.length)) m2)) := by
  have hNS : NPOS + 1 = SIZE_T_MOD := by decide
  have hple : p + m1.length ≤ s.length := findSub_some_le _ _ _ hf
  have hdropNPOS : (s.drop (p + m1.length)).take NPOS = s.drop (p + m1.length) := by
    apply List.take_of_length_le
    rw [List.length_drop]
    omega
  unfold parseBetween
  show (match cppSubstr s ((cppFindIdx s m1 + m1.length) % SIZE_T_MOD) NPOS with
    | none => none
    | some suffix =>
        cppSubstr s ((cppFindIdx s m1 + m1.length) % SIZE_T_MOD) (cppFindIdx suffix m2)) =
    some ((s.drop (p + m1.length)).take (cppFindIdx (s.drop (p + m1.length)) m2))
  rw [show cppFindIdx s m1 = p from by simp [cppFindIdx, hf]]
  rw [show (p + m1.length) % SIZE_T_MOD = p + m1.length from Nat.mod_eq_of_lt (by omega)]
  rw [cppSubstr_of_le s (p + m1.length) NPOS hple]
  show cppSubstr s (p + m1.length) (cppFindIdx ((s.drop (p + m1.length)).take NPOS) m2) =
    some ((s.drop (p + m1.length)).take (cppFindIdx (s.drop (p + m1.length)) m2))
  rw [hdropNPOS, cppSubstr_of_le s (p + m1.length) _ hple]

/-- Behavior of `parseBetween` when the first marker (non-empty) is absent
and the wrapped start index `m1.length - 1` is still in range: the result
is a slice of `s` starting at `m1.length - 1`, not the empty string. -/
theorem parseBetween_absent (s m1 m2 : List Char) (hf : findSub m1 s = none)
    (hm : 1 ≤ m1.length) (hmw : m1.length ≤ SIZE_T_MOD) (hs : s.length < SIZE_T_MOD)
    (hle : m1.length - 1 ≤ s.length) :
    parseBetween s m1 m2 =
      some ((s.drop (m1.length - 1)).take (cppFindIdx (s.drop (m1.length - 1)) m2)) := by
  have hNS : NPOS + 1 = SIZE_T_MOD := by decide
  have hmod : (NPOS + m1.length) % SIZE_T_MOD = m1.length - 1 := by
    rw [show NPOS + m1.length = SIZE_T_MOD + (m1.length - 1) from by omega, Nat.add_mod_left]
    exact Nat.mod_eq_of_lt (by omega)
  have hdropNPOS : (s.drop (m1.length - 1)).take NPOS = s.drop (m1.length - 1) := by
    apply List.take_of_length_le
    rw [List.length_drop]
    omega
  unfold parseBetween
  show (match cppSubstr s ((cppFindIdx s m1 + m1.length) % SIZE_T_MOD) NPOS with
    | none => none
    | some suffix =>
        cppSubstr s ((cppFindIdx s m1 + m1.length) % SIZE_T_MOD) (cppFindIdx suffix m2)) =
    some ((s.drop (m1.length - 1)).take (cppFindIdx (s.drop (m1.length - 1)) m2))
  rw [show cppFindIdx s m1 = NPOS from by simp [cppFindIdx, hf]]
  rw [hmod]
  rw [cppSubstr_of_le s (m1.length - 1) NPOS hle]
  show cppSubstr s (m1.length - 1) (cppFindIdx ((s.drop (m1.length - 1)).take NPOS) m2) =
    some ((s.drop (m1.length - 1)).take (cppFindIdx (s.drop (m1.length - 1)) m2))
  rw [hdropNPOS, cppSubstr_of_le s (m1.length - 1) _ hle]

/-- Behavior of `parseBetween` when the first marker (non-empty) is absent
and `m1.length - 1` exceeds the string length: the inner
`s.substr(pos+i)` throws `std::out_of_range`. -/
theorem parseBetween_absent_none (s m1 m2 : List Char) (hf : findSub m1 s = none)
    (hm : 1 ≤ m1.length) (hmw : m1.length ≤ SIZE_T_MOD)
    (hgt : s.length < m1.length - 1) :
    parseBetween s m1 m2 = none := by
  have hNS : NPOS + 1 = SIZE_T_MOD := by decide
  have hmod : (NPOS + m1.length) % SIZE_T_MOD = m1.length - 1 := by
    rw [show NPOS + m1.length = SIZE_T_MOD + (m1.length - 1) from by omega, Nat.add_mod_left]
    exact Nat.mod_eq_of_lt (by omega)
  unfold parseBetween
  show (match cppSubstr s ((cppFindIdx s m1 + m1.length) % SIZE_T_MOD) NPOS with
    | none => none
    | some suffix =>
        cppSubstr s ((cppFindIdx s m1 + m1.length) % SIZE_T_MOD) (cppFindIdx suffix m2)) = none
  rw [show cppFindIdx s m1 = NPOS from by simp [cppFindIdx, hf]]
  rw [hmod]
  rw [show cppSubstr s (m1.length - 1) NPOS = none from by unfold cppSubstr; rw [if_pos (by omega)]]

/-- Behavior of `parseFromThisToEnd` when the marker occurs at index `p`:
everything after the marker. -/
theorem parseFromThisToEnd_found (s m1 : List Char) (p : Nat) (hf : findSub m1 s = some p)
    (hs : s.length < SIZE_T_MOD) :
    parseFromThisToEnd s m1 = some (s.drop (p + m1.length)) := by
  have hple : p + m1.length ≤ s.length := findSub_some_le _ _ _ hf
  unfold parseFromThisToEnd
  show cppSubstr s ((cppFindIdx s m1 + m1.length) % SIZE_T_MOD) s.length = some (s.drop (p + m1.length))
  rw [show cppFindIdx s m1 = p from by simp [cppFindIdx, hf]]
  rw [show (p + m1.length) % SIZE_T_MOD = p + m1.length from Nat.mod_eq_of_lt (by omega)]
  rw [cppSubstr_of_le s (p + m1.length) _ hple]
  rw [List.take_of_length_le (by rw [List.length_drop]; omega)]

/-- Behavior of `parseFromThisToEnd` when the (non-empty) marker is absent
and `m1.length - 1` is in range: the suffix of `s` from `m1.length - 1`,
not the empty string. -/
theorem parseFromThisToEnd_absent (s m1 : List Char) (hf : findSub m1 s = none)
    (hm : 1 ≤ m1.length) (hmw : m1.length ≤ SIZE_T_MOD)
    (hle : m1.length - 1 ≤ s.length) :
    parseFromThisToEnd s m1 = some (s.drop (m1.length - 1)) := by
  have hNS : NPOS + 1 = SIZE_T_MOD := by decide
  have hmod : (NPOS + m1.length) % SIZE_T_MOD = m1.length - 1 := by
    rw [show NPOS + m1.length = SIZE_T_MOD + (m1.length - 1) from by omega, Nat.add_mod_left]
    exact Nat.mod_eq_of_lt (by omega)
  unfold parseFromThisToEnd
  show cppSubstr s ((cppFindIdx s m1 + m1.length) % SIZE_T_MOD) s.length = some (s.drop (m1.length - 1))
  rw [show cppFindIdx s m1 = NPOS from by simp [cppFindIdx, hf]]
  rw [hmod]
  rw [cppSubstr_of_le s (m1.length - 1) _ hle]
  rw [List.take_of_length_le (by rw [List.length_drop]; omega)]

/-- Behavior of `parseFromThisToEnd` when the (non-empty) marker is absent
and `m1.length - 1` is out of range: `std::out_of_range` is thrown. -/
theorem parseFromThisToEnd_absent_none (s m1 : List Char) (hf : findSub m1 s = none)
    (hm : 1 ≤ m1.length) (hmw : m1.length ≤ SIZE_T_MOD)
    (hgt : s.length < m1.length - 1) :
    parseFromThisToEnd s m1 = none := by
  have hNS : NPOS + 1 = SIZE_T_MOD := by decide
  have hmod : (NPOS + m1.length) % SIZE_T_MOD = m1.length - 1 := by
    rw [show NPOS + m1.length = SIZE_T_MOD + (m1.length - 1) from by omega, Nat.add_mod_left]
    exact Nat.mod_eq_of_lt (by omega)
  unfold parseFromThisToEnd
  show cppSubstr s ((cppFindIdx s m1 + m1.length) % SIZE_T_MOD) s.length = none
  rw [show cppFindIdx s m1 = NPOS from by simp [cppFindIdx, hf]]
  rw [hmod]
  unfold cppSubstr
  rw [if_pos (by omega)]

theorem getMethod_isSome (rc : List Char) (hs : rc.length < SIZE_T_MOD) :
    ∃ m, getMethod rc = some m := by
  unfold getMethod
  exact ⟨_, parseBetween_found rc ([] : List Char) ((" ").data) 0 (findSub_nil_marker rc) hs⟩

theorem getPath_isSome (rc : List Char) (hne : rc ≠ []) (hs : rc.length < SIZE_T_MOD) :
    ∃ p, getPath rc = some p := by
  unfold getPath
  cases hf : findSub ((" /").data) rc with
  | none =>
    refine ⟨_, parseBetween_absent rc _ _ hf (by decide) (by decide) hs ?_⟩
    rw [show (((" /").data)).length = 2 from by decide]
    cases rc with
    | nil => exact absurd rfl hne
    | cons a t => simp
  | some p =>
    exact ⟨_, parseBetween_found rc _ _ p hf hs⟩

/-- The code's two-stage extraction (`find_last_of` plus `size_t`
arithmetic) computes exactly the spec-side extension: the substring after
the last dot of the last path segment, empty when that segment has no
dot. -/
theorem getFileExtension_eq_spec (path : List Char) (hlen : path.length ≤ NPOS) :
    getFileExtension path = some (extensionSpec path) := by
  have hNS : NPOS + 1 = SIZE_T_MOD := by decide
  have hfile : ∃ file,
      cppSubstr path (((find_last_of path '/').getD NPOS + 1) % SIZE_T_MOD) NPOS = some file ∧
        file = lastSegment path := by
    cases hf : find_last_of path '/' with
    | none =>
      refine ⟨path, ?_, ?_⟩
      · rw [show (((none : Option Nat)).getD NPOS + 1) % SIZE_T_MOD = 0 from by decide]
        rw [cppSubstr_of_le path 0 NPOS (by omega)]
        rw [List.drop_zero]
        rw [List.take_of_length_le hlen]
      · unfold lastSegment
        rw [afterLast_of_not_mem '/' path ((find_last_of_eq_none_iff path '/').mp hf)]
    | some i =>
      have hilt : i < path.length := find_last_of_some_lt _ _ _ hf
      refine ⟨path.drop (i + 1), ?_, ?_⟩
      · show cppSubstr path ((i + 1) % SIZE_T_MOD) NPOS = some (path.drop (i + 1))
        rw [Nat.mod_eq_of_lt (by omega)]
        rw [cppSubstr_of_le path (i + 1) NPOS (by omega)]
        rw [List.take_of_length_le (by rw [List.length_drop]; omega)]
      · unfold lastSegment
        exact drop_find_last_eq_afterLast '/' path i hf
  obtain ⟨file, hsub, hfileEq⟩ := hfile
  have hfl : file.length ≤ path.length := by
    rw [hfileEq]
    unfold lastSegment
    exact afterLast_length_le '/' path
  unfold getFileExtension
  show (match cppSubstr path (((find_last_of path '/').getD NPOS + 1) % SIZE_T_MOD) NPOS with
    | none => none
    | some file =>
      let found2 := (find_last_of file '.').getD NPOS
      if found2 = NPOS then some []
      else cppSubstr file ((found2 + 1) % SIZE_T_MOD) NPOS) = some (extensionSpec path)
  rw [hsub]
  unfold extensionSpec
  rw [← hfileEq]
  cases hf2 : find_last_of file '.' with
  | none =>
    have hd : '.' ∉ file := (find_last_of_eq_none_iff file '.').mp hf2
    show (if ((find_last_of file '.').getD NPOS) = NPOS then some []
      else cppSubstr file (((find_last_of file '.').getD NPOS + 1) % SIZE_T_MOD) NPOS) =
      some (if '.' ∈ file then afterLast '.' file else [])
    rw [hf2]
    simp [hd]
  | some i2 =>
    have hd : '.' ∈ file := by
      by_contra hc
      rw [← find_last_of_eq_none_iff file '.'] at hc
      rw [hc] at hf2
      cases hf2
    have hi2 : i2 < file.length := find_last_of_some_lt _ _ _ hf2
    show (if ((find_last_of file '.').getD NPOS) = NPOS then some []
      else cppSubstr file (((find_last_of file '.').getD NPOS + 1) % SIZE_T_MOD) NPOS) =
      some (if '.' ∈ file then afterLast '.' file else [])
    rw [hf2]
    have hne : ((some i2).getD NPOS) ≠ NPOS := by
      simp only [Option.getD_some]
      omega
    rw [if_neg hne, if_pos hd]
    show cppSubstr file ((i2 + 1) % SIZE_T_MOD) NPOS = some (afterLast '.' file)
    rw [Nat.mod_eq_of_lt (by omega)]
    rw [cppSubstr_of_le file (i2 + 1) NPOS (by omega)]
    rw [List.take_of_length_le (by rw [List.length_drop]; omega)]
    rw [drop_find_last_eq_afterLast '.' file i2 hf2]

/-- C7: whenever the number of received bytes exceeds the 1024-byte
buffer, the response is the 414 status line followed by a blank line,
regardless of method and path, and dispatch is short-circuited entirely:
no route handler runs and the state is unchanged. (The request string is
required to be non-empty, since on the empty string `getPath` itself
throws; a `recv` result larger than the buffer cannot leave an empty
buffer anyway.) -/
theorem c7_buffer_overflow_responds_414 (st : SysState) (bytes_received : Nat)
    (requestContents directory : List Char)
    (hbig : bytes_received > 1024) (hne : requestContents ≠ [])
    (hlen : requestContents.length < SIZE_T_MOD) :
    handleClient st bytes_received requestContents directory = some (HTTP414 ++ CRLF, st) := by
  obtain ⟨p, hp⟩ := getPath_isSome requestContents hne hlen
  obtain ⟨m, hm⟩ := getMethod_isSome requestContents hlen
  have hresp : (if bytes_received > 1024 then HTTP414 ++ CRLF else []) = HTTP414 ++ CRLF :=
    if_pos hbig
  have h414ne : (HTTP414 ++ CRLF : List Char) ≠ [] := by decide
  unfold handleClient
  simp only [hp, hm, hresp, if_pos h414ne]

/-- C1: evaluation at the failing input. A `HEAD` request takes none of
the dispatch branches, so the response stays the empty string and zero
bytes are sent instead of the claimed 501 status line; the other half of
the claim does hold: a `POST` whose path does not start with `files/`
gets the 501 response. -/
theorem c1_head_request_gets_empty_response :
    ((handleClient stEmpty 22 (("HEAD /abc HTTP/1.1\r\n\r\n").data) []).map Prod.fst =
      some ([] : List Char)) ∧
    (some ([] : List Char) ≠ some (HTTP501 ++ CRLF)) ∧
    ((handleClient stEmpty 22 (("POST /abc HTTP/1.1\r\n\r\n").data) []).map Prod.fst =
      some (HTTP501 ++ CRLF)) := by
  refine ⟨by decide, by decide, by decide⟩

/-- C2 counterexample: for `s = "hello"` and the absent marker
`m1 = "xy"`, both operations return `"ello"` (a non-empty slice), not the
empty string; and for `s = "a"` with absent marker `"wxyz"` the
`parseBetween` call throws `std::out_of_range` instead of returning
anything. -/
theorem c2_counterexample :
    (¬ occursIn (("xy").data) (("hello").data)) ∧
    parseBetween (("hello").data) (("xy").data) (("zz").data) = some (("ello").data) ∧
    parseFromThisToEnd (("hello").data) (("xy").data) = some (("ello").data) ∧
    ((("ello").data : List Char) ≠ ([] : List Char)) ∧
    (¬ occursIn (("wxyz").data) (("a").data)) ∧
    parseBetween (("a").data) (("wxyz").data) (("zz").data) = none := by
  refine ⟨(findSub_eq_none_iff _ _).mp (by decide), by decide, by decide, by decide,
    (findSub_eq_none_iff _ _).mp (by decide), by decide⟩

/-- C2 (amended): when the non-empty first marker does not occur in `s`
the operations are not safe and do not return the empty string in
general: the start index wraps to `m1.length - 1`; if that exceeds
`s.length`, both operations throw `std::out_of_range`; otherwise
`parseFromThisToEnd` returns the suffix of `s` from index
`m1.length - 1`, and `parseBetween` returns that suffix cut at the first
occurrence of the second marker. -/
theorem c2_amended_absent_marker_behavior (s m1 m2 : List Char)
    (hocc : ¬ occursIn m1 s) (hne : m1 ≠ [])
    (hm : m1.length ≤ SIZE_T_MOD) (hs : s.length < SIZE_T_MOD) :
    (m1.length - 1 ≤ s.length →
      parseBetween s m1 m2 =
        some ((s.drop (m1.length - 1)).take (cppFindIdx (s.drop (m1.length - 1)) m2)) ∧
      parseFromThisToEnd s m1 = some (s.drop (m1.length - 1))) ∧
    (s.length < m1.length - 1 →
      parseBetween s m1 m2 = none ∧ parseFromThisToEnd s m1 = none) := by
  have hf : findSub m1 s = none := (findSub_eq_none_iff m1 s).mpr hocc
  have h1 : 1 ≤ m1.length := by
    cases m1 with
    | nil => exact absurd rfl hne
    | cons a t => simp
  constructor
  · intro hle
    exact ⟨parseBetween_absent s m1 m2 hf h1 hm hs hle,
      parseFromThisToEnd_absent s m1 hf h1 hm hle⟩
  · intro hgt
    exact ⟨parseBetween_absent_none s m1 m2 hf h1 hm hgt,
      parseFromThisToEnd_absent_none s m1 hf h1 hm hgt⟩

theorem c2_amended_absent_marker_behavior_witness :
    parseBetween (("hello").data) (("xy").data) (("zz").data) = some (("ello").data) ∧
    parseFromThisToEnd (("hello").data) (("xy").data) = some (("ello").data) := by
  have h := (c2_amended_absent_marker_behavior (("hello").data) (("xy").data) (("zz").data)
    ((findSub_eq_none_iff _ _).mp (by decide)) (by decide) (by decide) (by decide)).1 (by decide)
  exact ⟨h.1.trans (by decide), h.2.trans (by decide)⟩

/-- C8 counterexample: the GET request `"GET /user-agent HTTP/1.1\r\n\r\n"`
contains no `"\r\nUser-Agent: "` marker, yet the served 200 response has
`Content-Length: 11` and the garbage body `"nt HTTP/1.1"` (bytes 13-23 of
the raw request), not an empty body. -/
theorem c8_counterexample :
    (¬ occursIn (CRLF ++ ("User-Agent: ").data) (("GET /user-agent HTTP/1.1\r\n\r\n").data)) ∧
    (handleClient stEmpty 28 (("GET /user-agent HTTP/1.1\r\n\r\n").data) []).map Prod.fst =
      some (("HTTP/1.1 200 OK\r\nContent-Type: text/plain\r\nContent-Length: 11\r\n\r\nnt HTTP/1.1").data) ∧
    ((("HTTP/1.1 200 OK\r\nContent-Type: text/plain\r\nContent-Length: 11\r\n\r\nnt HTTP/1.1").data : List Char) ≠
      ("HTTP/1.1 200 OK\r\nContent-Type: text/plain\r\nContent-Length: 0\r\n\r\n").data) := by
  refine ⟨(findSub_eq_none_iff _ _).mp (by decide), by decide, by decide⟩

/-- C8 (amended): a request whose raw bytes lack the
`"\r\nUser-Agent: "` marker still gets a 200 `text/plain` response, but
the body is not empty in general: the wrapped start index is 13 (the
marker length minus one), so the body is the slice of the raw request
from byte 13 up to the next CRLF, and the call throws
`std::out_of_range` when the request is shorter than 13 bytes. -/
theorem c8_amended_missing_user_agent (rc : List Char)
    (hocc : ¬ occursIn (CRLF ++ ("User-Agent: ").data) rc)
    (h13 : 13 ≤ rc.length) (hs : rc.length < SIZE_T_MOD) :
    formulateUserAgentResponse rc =
      some (HTTP200 ++ ("Content-Type: text/plain").data ++ CRLF ++ ("Content-Length: ").data ++
        (Nat.repr ((rc.drop 13).take (cppFindIdx (rc.drop 13) CRLF)).length).data ++ CRLF ++ CRLF ++
        (rc.drop 13).take (cppFindIdx (rc.drop 13) CRLF)) := by
  have hf : findSub (CRLF ++ ("User-Agent: ").data) rc = none :=
    (findSub_eq_none_iff _ _).mpr hocc
  have hpb := parseBetween_absent rc (CRLF ++ ("User-Agent: ").data) CRLF hf
    (by decide) (by decide) hs
    (by rw [show (CRLF ++ ("User-Agent: ").data).length = 14 from by decide]; omega)
  rw [show (CRLF ++ ("User-Agent: ").data).length - 1 = 13 from by decide] at hpb
  unfold formulateUserAgentResponse
  rw [hpb]

theorem c8_amended_missing_user_agent_witness :
    formulateUserAgentResponse (("GET /user-agent HTTP/1.1\r\n\r\n").data) =
      some (("HTTP/1.1 200 OK\r\nContent-Type: text/plain\r\nContent-Length: 11\r\n\r\nnt HTTP/1.1").data) := by
  have h := c8_amended_missing_user_agent (("GET /user-agent HTTP/1.1\r\n\r\n").data)
    ((findSub_eq_none_iff _ _).mp (by decide)) (by decide) (by decide)
  exact h.trans (by decide)

/-- C3: every GET request whose parsed path is `echo/<text>` (and which
does not trip the 414 pre-check) is answered with status 200, header
`Content-Type: text/plain`, header `Content-Length` equal to the byte
length of `<text>`, and body exactly `<text>`, obtained by straight
substring slicing with no percent-decoding. -/
theorem c3_echo_response (st : SysState) (bytes_received : Nat) (rc directory text : List Char)
    (hb : ¬ bytes_received > 1024)
    (hm : getMethod rc = some (("GET").data))
    (hp : getPath rc = some (("echo/").data ++ text))
    (ht : text.length ≤ NPOS) :
    handleClient st bytes_received rc directory =
      some (HTTP200 ++ ("Content-Type: text/plain").data ++ CRLF ++ ("Content-Length: ").data ++
        (Nat.repr text.length).data ++ CRLF ++ CRLF ++ text, st) := by
  have h5 : ((("echo/").data : List Char)).length = 5 := by decide
  have hnil : ¬ ((("echo/").data ++ text : List Char) = []) := by
    simp
  have hprefix : cppSubstr ((("echo/").data) ++ text) 0 5 = some (("echo/").data) := by
    rw [cppSubstr_of_le _ 0 5 (by omega)]
    rw [List.drop_zero]
    rw [show (5 : Nat) = ((("echo/").data : List Char)).length from h5.symm]
    rw [List.take_left]
  have hecho : formulateEchoResponse ((("echo/").data) ++ text) =
      some (HTTP200 ++ ("Content-Type: text/plain").data ++ CRLF ++ ("Content-Length: ").data ++
        (Nat.repr text.length).data ++ CRLF ++ CRLF ++ text) := by
    unfold formulateEchoResponse
    have hlen6 : ('/' :: ((("echo/").data) ++ text)).length = 6 + text.length := by
      simp only [List.length_cons, List.length_append, h5]
      omega
    have hdrop : ('/' :: ((("echo/").data) ++ text)).drop 6 = text := rfl
    show (match cppSubstr ('/' :: ((("echo/").data) ++ text)) 6 NPOS with
      | none => none
      | some body =>
        some (HTTP200 ++ ("Content-Type: text/plain").data ++ CRLF ++ ("Content-Length: ").data ++
          (Nat.repr body.length).data ++ CRLF ++ CRLF ++ body)) =
      some (HTTP200 ++ ("Content-Type: text/plain").data ++ CRLF ++ ("Content-Length: ").data ++
        (Nat.repr text.length).data ++ CRLF ++ CRLF ++ text)
    rw [cppSubstr_of_le _ 6 NPOS (by omega)]
    rw [hdrop]
    rw [List.take_of_length_le ht]
  have hresp : (if bytes_received > 1024 then HTTP414 ++ CRLF else []) = [] := if_neg hb
  unfold handleClient
  simp only [hp, hm, hresp, hecho, hprefix, hnil]
  simp

theorem c3_echo_response_witness :
    handleClient stEmpty 26 (("GET /echo/abc HTTP/1.1\r\n\r\n").data) [] =
      some ((("HTTP/1.1 200 OK\r\nContent-Type: text/plain\r\nContent-Length: 3\r\n\r\nabc").data),
        stEmpty) := by
  have h := c3_echo_response stEmpty 26 (("GET /echo/abc HTTP/1.1\r\n\r\n").data) [] (("abc").data)
    (by decide) (by decide) (by decide) (by decide)
  exact h.trans (congrArg (fun b => some (b, stEmpty)) (by decide))

/-- C9: content-type resolution is a pure function of the path: the
code's extension extraction computes the substring after the last `"."`
of the last path segment (empty when that segment has no `"."`), and the
code's table equals the spec's fixed extension-to-MIME table with every
other or empty extension mapped to `application/octet-stream`. -/
theorem c9_content_type_resolution (path : List Char) (hlen : path.length ≤ NPOS) :
    getFileExtension path = some (extensionSpec path) ∧
    (∀ ext : List Char, defaultContentType ext = contentTypeSpec ext) :=
  ⟨getFileExtension_eq_spec path hlen, fun _ => rfl⟩

theorem c9_content_type_resolution_witness :
    getFileExtension (("dir/archive.v1.json").data) = some (("json").data) ∧
    defaultContentType (("json").data) = ("application/json").data := by
  have h := c9_content_type_resolution (("dir/archive.v1.json").data) (by decide)
  exact ⟨h.1.trans (by decide), (h.2 (("json").data)).trans (by decide)⟩

/-- C5: `isValidFilePath` returns true exactly when the path contains at
least one `"/"` and the file can be opened for reading; consequently a
GET of `files/<name>` for a `<name>` that does not exist under the
configured directory is answered with the 404 status line and a blank
line, with no body. -/
theorem c5_is_valid_iff_and_missing_404 (st : SysState) (path dir name : List Char)
    (hp : path.length < NPOS) (hd : (dir ++ name).length < NPOS)
    (hmiss : st.fs (dir ++ name) = none) :
    (isValidFilePath st path = true ↔ ('/' ∈ path ∧ (st.fs path).isSome = true)) ∧
    codeCraftersGetFile st ((("files/").data) ++ name) dir = some (HTTP404 ++ CRLF) := by
  have h6 : ((("files/").data : List Char)).length = 6 := by decide
  constructor
  · unfold isValidFilePath
    cases hf : find_first_of path '/' with
    | none =>
      have hnm : '/' ∉ path := (find_first_of_eq_none_iff path '/').mp hf
      show (if ((none : Option Nat).getD NPOS) > path.length then false
        else (st.fs path).isSome) = true ↔ _
      rw [if_pos (by simp only [Option.getD_none]; omega)]
      simp [hnm]
    | some i =>
      have hlt := find_first_of_some_lt path '/' i hf
      have hm : '/' ∈ path := by
        by_contra hc
        rw [← find_first_of_eq_none_iff path '/'] at hc
        rw [hc] at hf
        cases hf
      show (if ((some i : Option Nat).getD NPOS) > path.length then false
        else (st.fs path).isSome) = true ↔ _
      rw [if_neg (by simp only [Option.getD_some]; omega)]
      simp [hm]
  · have hlen : ((("files/").data) ++ name).length = 6 + name.length := by
      rw [List.length_append, h6]
    have hsub : cppSubstr ((("files/").data) ++ name) 6 (((("files/").data) ++ name).length) =
        some name := by
      rw [cppSubstr_of_le _ 6 _ (by omega)]
      rw [show ((("files/").data) ++ name).drop 6 = name from rfl]
      rw [List.take_of_length_le (by omega)]
    have hv : isValidFilePath st (dir ++ name) = false := by
      unfold isValidFilePath
      cases hf : find_first_of (dir ++ name) '/' with
      | none =>
        show (if ((none : Option Nat).getD NPOS) > (dir ++ name).length then false
          else (st.fs (dir ++ name)).isSome) = false
        rw [if_pos (by simp only [Option.getD_none]; omega)]
      | some i =>
        have hlt := find_first_of_some_lt _ _ _ hf
        show (if ((some i : Option Nat).getD NPOS) > (dir ++ name).length then false
          else (st.fs (dir ++ name)).isSome) = false
        rw [if_neg (by simp only [Option.getD_some]; omega)]
        rw [hmiss]
        rfl
    unfold codeCraftersGetFile
    rw [hsub]
    show (if isValidFilePath st (dir ++ name) = false then some (HTTP404 ++ CRLF)
      else some (fetchFileContents (st.fs (dir ++ name)) (("application/octet-stream").data))) =
      some (HTTP404 ++ CRLF)
    rw [if_pos hv]

theorem c5_is_valid_iff_and_missing_404_witness :
    (isValidFilePath stEmpty (("a/b").data) = true ↔
      ('/' ∈ (("a/b").data : List Char) ∧ ((stEmpty.fs (("a/b").data)).isSome = true))) ∧
    codeCraftersGetFile stEmpty ((("files/").data) ++ (("x").data)) (("d").data) =
      some (HTTP404 ++ CRLF) :=
  c5_is_valid_iff_and_missing_404 stEmpty (("a/b").data) (("d").data) (("x").data)
    (by decide) (by decide) (by decide)

/-- When the exact concatenation `directory ++ f` (the server inserts no
separator) names an openable file and contains at least one `"/"`,
`codeCraftersGetFile` serves that file byte for byte as
`application/octet-stream` with the correct `Content-Length`. -/
theorem codeCraftersGetFile_serves (st : SysState) (dir f data : List Char)
    (hfs : st.fs (dir ++ f) = some data) (hsep : '/' ∈ dir ++ f) :
    codeCraftersGetFile st ((("files/").data) ++ f) dir =
      some (HTTP200 ++ ("Content-Type: ").data ++ ("application/octet-stream").data ++ CRLF ++
        ("Content-Length: ").data ++ (Nat.repr data.length).data ++ CRLF ++ CRLF ++ data) := by
  have h6 : ((("files/").data : List Char)).length = 6 := by decide
  have hlen : ((("files/").data) ++ f).length = 6 + f.length := by
    rw [List.length_append, h6]
  have hsub : cppSubstr ((("files/").data) ++ f) 6 (((("files/").data) ++ f).length) = some f := by
    rw [cppSubstr_of_le _ 6 _ (by omega)]
    rw [show ((("files/").data) ++ f).drop 6 = f from rfl]
    rw [List.take_of_length_le (by omega)]
  have hv : isValidFilePath st (dir ++ f) = true := by
    unfold isValidFilePath
    cases hf2 : find_first_of (dir ++ f) '/' with
    | none =>
      exact absurd hsep ((find_first_of_eq_none_iff _ _).mp hf2)
    | some i =>
      have hlt := find_first_of_some_lt _ _ _ hf2
      show (if ((some i : Option Nat).getD NPOS) > (dir ++ f).length then false
        else (st.fs (dir ++ f)).isSome) = true
      rw [if_neg (by simp only [Option.getD_some]; omega)]
      rw [hfs]
      rfl
  unfold codeCraftersGetFile
  rw [hsub]
  show (if isValidFilePath st (dir ++ f) = false then some (HTTP404 ++ CRLF)
    else some (fetchFileContents (st.fs (dir ++ f)) (("application/octet-stream").data))) = _
  rw [if_neg (by rw [hv]; simp)]
  rw [hfs]
  rw [fetchFileContents_eq]

/-- When the destination can be opened and the request parses without an
exception, `storeFile` reports success and writes the parsed body to the
joined destination path. -/
theorem storeFile_success (st : SysState) (path dir rc body : List Char)
    (h6 : 6 ≤ path.length)
    (hb : parseFromThisToEnd rc (CRLF ++ CRLF) = some body)
    (hw : st.writable (if dir = [] then dir ++ ((path.drop 6).take path.length)
      else dir ++ '/' :: ((path.drop 6).take path.length)) = true) :
    storeFile st path dir rc =
      some (true, writeFS st (if dir = [] then dir ++ ((path.drop 6).take path.length)
        else dir ++ '/' :: ((path.drop 6).take path.length)) body) := by
  unfold storeFile
  rw [cppSubstr_of_le path 6 path.length h6]
  show (if st.writable (if dir = [] then dir ++ ((path.drop 6).take path.length)
      else dir ++ '/' :: ((path.drop 6).take path.length)) = false then some (false, st)
    else match parseFromThisToEnd rc (CRLF ++ CRLF) with
      | none => none
      | some body => some (true, writeFS st (if dir = [] then dir ++ ((path.drop 6).take path.length)
          else dir ++ '/' :: ((path.drop 6).take path.length)) body)) = _
  rw [if_neg (by rw [hw]; simp)]
  rw [hb]

/-- C4 counterexample: the state holds exactly the file `d/x` (the file
`x` inside directory `d`, contents `"hello"`) and the configured
directory is `"d"`, yet `GET files/x` is answered 404 — the server looks
up the separator-less concatenation `dx` — and the file's contents occur
nowhere in the response. -/
theorem c4_counterexample :
    stOneFile.fs (("d/x").data) = some (("hello").data) ∧
    codeCraftersGetFile stOneFile ((("files/").data) ++ (("x").data)) (("d").data) =
      some (HTTP404 ++ CRLF) ∧
    findSub (("hello").data) (HTTP404 ++ CRLF) = none := by
  refine ⟨by decide, by decide, by decide⟩

/-- C4 (amended): for every file whose exact path is the concatenation
`directory ++ f` — the server inserts no separator, so this is the file
`f` under the configured directory only when the directory string is
slash-terminated — and whose path contains at least one `"/"`, GET
`files/<f>` returns status 200, `Content-Type: application/octet-stream`
regardless of extension, `Content-Length` equal to the body's byte
length, and a body byte-for-byte equal to the file contents: the
line-by-line reconstruction with exactly one trailing newline stripped is
the identity. -/
theorem c4_amended_get_file_exact_concatenation (st : SysState) (dir f data : List Char)
    (hfs : st.fs (dir ++ f) = some data) (hsep : '/' ∈ dir ++ f) :
    codeCraftersGetFile st ((("files/").data) ++ f) dir =
      some (HTTP200 ++ ("Content-Type: ").data ++ ("application/octet-stream").data ++ CRLF ++
        ("Content-Length: ").data ++ (Nat.repr data.length).data ++ CRLF ++ CRLF ++ data) :=
  codeCraftersGetFile_serves st dir f data hfs hsep

theorem c4_amended_get_file_exact_concatenation_witness :
    codeCraftersGetFile stOneFile ((("files/").data) ++ (("x").data)) (("d/").data) =
      some (("HTTP/1.1 200 OK\r\nContent-Type: application/octet-stream\r\nContent-Length: 5\r\n\r\nhello").data) := by
  have h := c4_amended_get_file_exact_concatenation stOneFile (("d/").data) (("x").data)
    (("hello").data) (by decide) (by decide)
  exact h.trans (by decide)

/-- C6 counterexample: with configured directory `"d"` (every destination
writable, no pre-existing files), POST `files/a` with body `"x"` stores
the file at `d/a`, but the subsequent GET of `files/a` reads the distinct
path `da` and is answered 404; the stored body `"x"` does not occur in
the response at all. -/
theorem c6_counterexample :
    roundTrip stWritable (("d").data) (("a").data) (("POST /files/a HTTP/1.1\r\n\r\nx").data) =
      some (HTTP404 ++ CRLF) ∧
    findSub (("x").data) (HTTP404 ++ CRLF) = none := by
  refine ⟨by decide, by decide⟩

/-- C6 (amended): the store-then-fetch round trip holds when the
configured directory is the empty string and `<name>` contains a path
separator: both operations then use the bare `<name>` as the path, so a
POST whose body starts after the first `"\r\n\r\n"` (at index `k + 4`)
followed by a GET of the same name returns exactly that body, for every
body, trailing newline or not. With a non-empty directory `D` not ending
in a separator the POST writes `D/<name>` while the GET reads `D<name>`,
so the round trip fails (see the counterexample). -/
theorem c6_amended_round_trip_empty_directory (st : SysState) (name rc : List Char) (k : Nat)
    (hsep : '/' ∈ name) (hw : st.writable name = true)
    (hk : findSub (CRLF ++ CRLF) rc = some k) (hs : rc.length < SIZE_T_MOD) :
    storeFile st ((("files/").data) ++ name) [] rc =
      some (true, writeFS st name (rc.drop (k + 4))) ∧
    codeCraftersGetFile (writeFS st name (rc.drop (k + 4))) ((("files/").data) ++ name) [] =
      some (HTTP200 ++ ("Content-Type: ").data ++ ("application/octet-stream").data ++ CRLF ++
        ("Content-Length: ").data ++ (Nat.repr (rc.drop (k + 4)).length).data ++ CRLF ++ CRLF ++
        rc.drop (k + 4)) := by
  have h6 : ((("files/").data : List Char)).length = 6 := by decide
  have hlen : ((("files/").data) ++ name).length = 6 + name.length := by
    rw [List.length_append, h6]
  have hX : ((((("files/").data) ++ name).drop 6).take (((("files/").data) ++ name).length)) =
      name := by
    rw [show ((("files/").data) ++ name).drop 6 = name from rfl]
    rw [List.take_of_length_le (by omega)]
  have hXif : (if ([] : List Char) = [] then
      ([] : List Char) ++ ((((("files/").data) ++ name).drop 6).take (((("files/").data) ++ name).length))
      else ([] : List Char) ++ '/' :: ((((("files/").data) ++ name).drop 6).take (((("files/").data) ++ name).length))) =
      name := by
    rw [if_pos rfl, hX, List.nil_append]
  have hbody := parseFromThisToEnd_found rc (CRLF ++ CRLF) k hk hs
  rw [show ((CRLF ++ CRLF : List Char)).length = 4 from by decide] at hbody
  have hstore := storeFile_success st ((("files/").data) ++ name) [] rc (rc.drop (k + 4))
    (by omega) hbody (by rw [hXif]; exact hw)
  rw [hXif] at hstore
  refine ⟨hstore, ?_⟩
  exact codeCraftersGetFile_serves (writeFS st name (rc.drop (k + 4))) [] name (rc.drop (k + 4))
    (by simp [writeFS]) (by simpa using hsep)

theorem c6_amended_round_trip_empty_directory_witness :
    storeFile stWritable ((("files/").data) ++ (("sub/f.txt").data)) []
        (("POST /files/sub/f.txt HTTP/1.1\r\n\r\nhello").data) =
      some (true, writeFS stWritable (("sub/f.txt").data) (("hello").data)) ∧
    codeCraftersGetFile (writeFS stWritable (("sub/f.txt").data) (("hello").data))
        ((("files/").data) ++ (("sub/f.txt").data)) [] =
      some (("HTTP/1.1 200 OK\r\nContent-Type: application/octet-stream\r\nContent-Length: 5\r\n\r\nhello").data) := by
  have h := c6_amended_round_trip_empty_directory stWritable (("sub/f.txt").data)
    (("POST /files/sub/f.txt HTTP/1.1\r\n\r\nhello").data) 30
    (by decide) (by decide) (by decide) (by decide)
  rw [show ((("POST /files/sub/f.txt HTTP/1.1\r\n\r\nhello").data).drop (30 + 4)) =
    (("hello").data) from by decide] at h
  exact ⟨h.1, h.2.trans (by decide)⟩

/-- C10: a POST to `files/<name>` whose raw bytes contain no
`"\r\n\r\n"` marker and are at least 3 bytes long still succeeds —
`handleClient` then sends 201 Created on a `true` return (lines 271-273) —
because the missed marker wraps the start index to 3, and the stored
contents are the raw request bytes from index 3 on, not an empty body and
not an error. -/
theorem c10_store_without_separator (st : SysState) (name dir rc : List Char)
    (hocc : ¬ occursIn (CRLF ++ CRLF) rc) (h3 : 3 ≤ rc.length)
    (hw : st.writable (if dir = [] then dir ++ name else dir ++ '/' :: name) = true) :
    storeFile st ((("files/").data) ++ name) dir rc =
      some (true, writeFS st (if dir = [] then dir ++ name else dir ++ '/' :: name)
        (rc.drop 3)) := by
  have h6 : ((("files/").data : List Char)).length = 6 := by decide
  have hlen : ((("files/").data) ++ name).length = 6 + name.length := by
    rw [List.length_append, h6]
  have hX : ((((("files/").data) ++ name).drop 6).take (((("files/").data) ++ name).length)) =
      name := by
    rw [show ((("files/").data) ++ name).drop 6 = name from rfl]
    rw [List.take_of_length_le (by omega)]
  have hf : findSub (CRLF ++ CRLF) rc = none := (findSub_eq_none_iff _ _).mpr hocc
  have hb := parseFromThisToEnd_absent rc (CRLF ++ CRLF) hf (by decide) (by decide)
    (by rw [show ((CRLF ++ CRLF : List Char)).length = 4 from by decide]; omega)
  rw [show ((CRLF ++ CRLF : List Char)).length - 1 = 3 from by decide] at hb
  have h := storeFile_success st ((("files/").data) ++ name) dir rc (rc.drop 3)
    (by omega) hb (by rw [hX]; exact hw)
  rw [hX] at h
  exact h

theorem c10_store_without_separator_witness :
    storeFile stWritable ((("files/").data) ++ (("a").data)) (("d").data) (("POSTxy").data) =
      some (true, writeFS stWritable (("d/a").data) (("Txy").data)) := by
  have h := c10_store_without_separator stWritable (("a").data) (("d").data) (("POSTxy").data)
    ((findSub_eq_none_iff _ _).mp (by decide)) (by decide) (by decide)
  rw [show (if (("d").data : List Char) = [] then (("d").data) ++ (("a").data)
    else (("d").data) ++ '/' :: (("a").data)) = (("d/a").data) from by decide] at h
  rw [show ((("POSTxy").data).drop 3) = (("Txy").data) from by decide] at h
  exact h

theorem c7_buffer_overflow_responds_414_witness :
    handleClient stEmpty 2000 (("x").data) [] = some (HTTP414 ++ CRLF, stEmpty) :=
  c7_buffer_overflow_responds_414 stEmpty 2000 (("x").data) [] (by decide) (by decide) (by decide)
